import Mathlib

/-!
# Verification of the controlbot firmware (src/arduino/main.cpp)

Shallow embedding of the robot firmware: quadrature encoder interrupt
handlers, the compass heading computation, the angular-wrap logic of the
main loop, the autodrive motion planner, the SD-card setup and CSV
serialization.  Machine `int`/`long` values are modelled as `Int`
(overflow does not decide any of the properties below), `float` values as
`ℝ` where trigonometry is involved and as `ℚ` where decimal formatting is
involved, and the hardware random source as explicit draw parameters.

The file is laid out as definitions (one section per firmware component),
then supporting lemmas, then one theorem per verified claim.
-/

/-! ## Quadrature encoders (src lines 112-138)

`digitalRead` returns `HIGH` (1) or `LOW` (0); we model the sampled level
of the B pin as a `Bool` (`true` = HIGH) converted to the integer the C
code computes with. -/

/-- The integer value `digitalRead` yields for a pin level. -/
def digitalVal (b : Bool) : Int := if b then 1 else 0

/-- Handler `interruptLeft` (src lines 125-127):
`volatile_left_steps += 2 * digitalRead(LEFT_ENCODER_B) - 1;`
applied to the current counter value, given the sampled B level. -/
def interruptLeft (steps : Int) (b : Bool) : Int :=
  steps + (2 * digitalVal b - 1)

/-- Handler `interruptRight` (src lines 129-131):
`volatile_right_steps -= 2 * digitalRead(RIGHT_ENCODER_B) - 1;` -/
def interruptRight (steps : Int) (b : Bool) : Int :=
  steps - (2 * digitalVal b - 1)

/-! ## Autodrive motion planner (src lines 213-263)

The planner state is the six globals declared at src lines 216-222.  The
hardware clock (`millis()`) and the C library random source (`random()`,
which returns a raw nonnegative `long`) are passed in explicitly: one
clock value per call site and one draw per `random()` call, in source
order. -/

/-- The six autodrive globals (src lines 216-222). -/
structure DriveState where
  start_time : Int
  start_left : Int
  start_right : Int
  end_time : Int
  end_left : Int
  end_right : Int
deriving DecidableEq, Repr

/-- Function `setupAutodrive` (src lines 224-232); `t1` and `t2` are the
values of the two successive `millis()` calls. -/
def setupAutodrive (t1 t2 : Int) : DriveState :=
  { start_time := t1, start_left := 128, start_right := 128,
    end_time := t2 + 100, end_left := 128, end_right := 128 }

/-- The segment-redraw branch of `autodrive` (src lines 241-249): if
`time > end_time`, the end targets become the start targets and new end
targets are drawn; `r1`, `r2`, `r3` are the three successive `random()`
draws. -/
def autodriveUpdate (s : DriveState) (time r1 r2 r3 : Int) : DriveState :=
  if time > s.end_time then
    { start_time := s.end_time, start_left := s.end_left, start_right := s.end_right,
      end_time := time + r1 * 1000 + 1000,
      end_left := r2 * 128 + 128,
      end_right := r3 * 128 + 128 }
  else s

/-- The Arduino `map` function: integer linear interpolation
`(x - in_min) * (out_max - out_min) / (in_max - in_min) + out_min`, with
C `long` division (truncation toward zero, `Int.tdiv`). -/
def arduinoMap (x in_min in_max out_min out_max : Int) : Int :=
  Int.tdiv ((x - in_min) * (out_max - out_min)) (in_max - in_min) + out_min

/-- The Arduino `constrain` macro: `amt` clamped into `[low, high]`.  The
source calls it at src lines 256-257 but discards the returned value, so
it never affects the pins. -/
def constrain (amt low high : Int) : Int :=
  if amt < low then low else if amt > high then high else amt

/-- The pair of duty values `autodrive` computes (src lines 252-253) and
passes to `analogWrite` (src lines 261-262).  The two `constrain` calls
of src lines 256-257 are absent because their results are discarded. -/
def autodriveOutput (s : DriveState) (time : Int) : Int × Int :=
  (arduinoMap time s.start_time s.end_time s.start_left s.end_left,
   arduinoMap time s.start_time s.end_time s.start_right s.end_right)

/-- One full `autodrive()` call (src lines 234-263): redraw the segment if
expired, then emit the interpolated duty pair for the pins. -/
def autodrive (s : DriveState) (time r1 r2 r3 : Int) : DriveState × Int × Int :=
  let s' := autodriveUpdate s time r1 r2 r3
  (s', autodriveOutput s' time)

/-! ## Compass heading (src lines 53-67)

Float arithmetic is modelled over `ℝ`; `atan2f(y, x)` is the argument of
the complex number `x + y·i`, whose range is (−π, π]. -/

/-- The two-argument arctangent `atan2f(y, x)`, as the complex argument
of `x + y·i`. -/
noncomputable def atan2 (y x : ℝ) : ℝ := Complex.arg ⟨x, y⟩

/-- Function `compassHeading` (src lines 53-67): one `compass.read()`
imports one sample, and the heading is `atan2f(getY(), getX())` of that
single sample.  A raw sample is the `(x, y)` pair of signed integer field
strengths. -/
noncomputable def compassHeading (sample : Int × Int) : ℝ :=
  atan2 (sample.2 : ℝ) (sample.1 : ℝ)

/-- Reading `compassHeading` at the sensor-sample stream level: the call
consumes exactly the next sample of the stream (the source performs a
single `compass.read()` per heading). -/
noncomputable def compassHeadingFrom (stream : ℕ → Int × Int) : ℝ :=
  compassHeading (stream 0)

/-- Modelled from the spec (refinement comparison only, not source code):
the claimed 5-sample variant of `readHeading()`, which averages the X and
Y components of five samples before the arctangent.  No such averaging
exists in src/arduino/main.cpp. -/
noncomputable def compassHeadingSpec5 (samples : Fin 5 → Int × Int) : ℝ :=
  atan2 ((∑ i, ((samples i).2 : ℝ)) / 5) ((∑ i, ((samples i).1 : ℝ)) / 5)

/-- A concrete sensor stream: first sample (10, 0), all later samples
(0, 10). -/
def cexStream : ℕ → Int × Int := fun n => if n = 0 then (10, 0) else (0, 10)

/-! ## Angular wrap in the main loop (src lines 288-303) -/

/-- The first wrap branch (src lines 297-299):
`if (heading_change > PI) heading_change -= 2 * PI;` -/
noncomputable def wrapHigh (d : ℝ) : ℝ :=
  if d > Real.pi then d - 2 * Real.pi else d

/-- The second wrap branch (src lines 301-303):
`if (heading_change < -PI) heading_change += 2 * PI;` -/
noncomputable def wrapLow (d : ℝ) : ℝ :=
  if d < -Real.pi then d + 2 * Real.pi else d

/-- The two sequential wrap branches applied to the raw difference, as in
the source's in-place mutation of `heading_change`. -/
noncomputable def wrapDelta (d : ℝ) : ℝ := wrapLow (wrapHigh d)

/-! ## Main loop tick (src lines 284-328) -/

/-- The loop's previous-tick baselines (src lines 284-286), all
zero-initialized globals. -/
structure LoopState where
  previous_heading : ℝ
  previous_left : Int
  previous_right : Int

/-- The zero baselines holding before the first tick (src lines
284-286). -/
noncomputable def initialLoopState : LoopState :=
  { previous_heading := 0, previous_left := 0, previous_right := 0 }

/-- One tick of `loop()` (src lines 288-321) up to the telemetry record:
given the fresh heading and the snapshot of the two step counters, it
wraps the heading difference, forms the step deltas against the previous
baselines, advances the baselines, and produces the record
(left_change, right_change, heading_change) passed to `writeSD`. -/
noncomputable def loopBody (st : LoopState) (heading : ℝ)
    (leftSteps rightSteps : Int) : LoopState × (Int × Int × ℝ) :=
  ({ previous_heading := heading,
     previous_left := leftSteps, previous_right := rightSteps },
   (leftSteps - st.previous_left, rightSteps - st.previous_right,
    wrapDelta (heading - st.previous_heading)))

/-! ## Interrupt-masked counter snapshot (src lines 305-311)

Concurrency model: the two encoder interrupts are the only asynchronous
writers of the step counters.  An edge event carries the sampled B level;
firing is conditioned on the interrupt-enable flag, which `noInterrupts()`
clears and `interrupts()` sets.  The loop's snapshot section is executed
with arbitrary edge events attempted at every interleaving point inside
the critical section. -/

/-- The cross-context state: both counters plus the interrupt-enable
flag. -/
structure EncState where
  leftSteps : Int
  rightSteps : Int
  intEnabled : Bool

/-- A rising-edge event on one encoder's A signal, carrying the sampled B
level. -/
inductive EdgeEvent where
  | leftEdge (b : Bool)
  | rightEdge (b : Bool)

/-- Hardware delivery of one edge event: the handler runs only while
interrupts are enabled (a masked event is lost to the counters, which is
exactly what `noInterrupts()` guarantees for the snapshot). -/
def fireEdge (s : EncState) (e : EdgeEvent) : EncState :=
  if s.intEnabled then
    match e with
    | .leftEdge b => { s with leftSteps := interruptLeft s.leftSteps b }
    | .rightEdge b => { s with rightSteps := interruptRight s.rightSteps b }
  else s

/-- Delivery of a sequence of edge events. -/
def fireEdges (s : EncState) (es : List EdgeEvent) : EncState :=
  es.foldl fireEdge s

/-- The snapshot section of `loop()` (src lines 308-311):
`noInterrupts(); left_steps = ...; right_steps = ...; interrupts();`
with arbitrary edge-event lists `e1`, `e2`, `e3` attempted after the
disable, between the two reads, and before the re-enable.  Returns the
pair of values read and the post-section state. -/
def snapshotSteps (s : EncState) (e1 e2 e3 : List EdgeEvent) :
    (Int × Int) × EncState :=
  let s0 : EncState := { s with intEnabled := false }
  let s1 := fireEdges s0 e1
  let leftRead := s1.leftSteps
  let s2 := fireEdges s1 e2
  let rightRead := s2.rightSteps
  let s3 := fireEdges s2 e3
  ((leftRead, rightRead), { s3 with intEnabled := true })

/-! ## SD-card setup and the write path (src lines 149-186)

`setupSD` (src lines 155-165) calls `SD.begin`, `SD.remove` and `SD.open`
in straight-line code: no return value is inspected, nothing is printed,
and there is no loop, so control always falls through to the rest of
`setup()` and then into `loop()`.  The environment records whether the
two fallible calls succeed; the result records what `setupSD` leaves
behind. -/

/-- Outcome of the two fallible SD operations during startup. -/
structure SDEnv where
  beginOk : Bool
  openOk : Bool

/-- What the straight-line body of `setupSD` produces: whether the global
`file` handle is usable, whether startup halted, and how many diagnostic
messages were emitted.  The source contains no test, no `Serial.print`,
and no `while` in `setupSD`, so the last two are constant. -/
structure SetupOutcome where
  fileOpen : Bool
  halted : Bool
  diagnosticCount : Nat

/-- Function `setupSD` (src lines 155-165): begin, remove, open, store
the handle; the handle is usable only if both fallible calls succeeded,
and control falls through unconditionally. -/
def setupSD (env : SDEnv) : SetupOutcome :=
  { fileOpen := env.beginOk && env.openOk, halted := false, diagnosticCount := 0 }

/-- The Arduino `File::write`/`flush` pair of `writeSD` at the log level:
writing on a handle that failed to open is a silent no-op (the line is
dropped); on an open handle the line is appended and flushed. -/
def fileAppend (fileOpen : Bool) (log : List (List Char)) (line : List Char) :
    List (List Char) :=
  if fileOpen then log ++ [line] else log

/-! ## CSV serialization (src lines 167-186)

`writeSD` produces the line `sprintf(buffer, "%d,%d,%f\n", ...)` as a
character buffer; we model the buffer as a `List Char`.  `%d` prints the
decimal digits of the integer with a leading `-` for negative values;
`%f` prints the value with exactly six decimal places, i.e. the decimal
numeral of the magnitude rounded to the nearest multiple of 10⁻⁶ (ties
cannot occur for binary float arguments; the model rounds them up), with
the sign in front.  The float argument is modelled as an exact rational,
which every binary float value is. -/

/-- The decimal digit characters of a natural number, most significant
first, as `%d` prints it (`"0"` for 0). -/
def natChars (n : Nat) : List Char :=
  if n = 0 then ['0'] else ((Nat.digits 10 n).map Nat.digitChar).reverse

/-- Decimal accumulator loop of the parser: consume digit characters,
fail on anything else. -/
def goNat (acc : Nat) : List Char → Option Nat
  | [] => some acc
  | c :: cs => if c.isDigit then goNat (acc * 10 + (c.toNat - 48)) cs else none

/-- Parse a nonempty all-digit character list as a natural number. -/
def parseNat (cs : List Char) : Option Nat :=
  if cs = [] then none else goNat 0 cs

/-- The six fractional digits of `%f`, zero-padded on the left. -/
def pad6 (m : Nat) : List Char :=
  List.replicate (6 - (natChars m).length) '0' ++ natChars m

/-- Split a character list at the first occurrence of `sep`: the field
before it and the remainder after it. -/
def splitOnChar (sep : Char) : List Char → List Char × List Char
  | [] => ([], [])
  | c :: cs =>
    if c = sep then ([], cs)
    else
      let p := splitOnChar sep cs
      (c :: p.1, p.2)

/-- Format `%d`: the decimal characters of a signed integer, `-` first
when negative. -/
def intChars (i : Int) : List Char :=
  if i < 0 then '-' :: natChars i.natAbs else natChars i.natAbs

/-- Parse a `%d`-formatted field back to a signed integer. -/
def parseInt (cs : List Char) : Option Int :=
  match cs with
  | [] => none
  | c :: cs' =>
    if c = '-' then (parseNat cs').map (fun n => -(Int.ofNat n))
    else (parseNat (c :: cs')).map (fun n => Int.ofNat n)

/-- The magnitude of the float argument rounded to the nearest integer
number of 10⁻⁶ units, as `%f` prints it. -/
def q6mag (h : ℚ) : Nat := (⌊|h| * 1000000 + 1 / 2⌋).toNat

/-- The signed rounded value represented by the printed `%f` text, in
10⁻⁶ units. -/
def q6round (h : ℚ) : Int := if h < 0 then -(q6mag h : Int) else (q6mag h : Int)

/-- Format `%f`: sign, integer part, `.`, six zero-padded fractional
digits. -/
def floatChars (h : ℚ) : List Char :=
  (if h < 0 then ['-'] else []) ++
    (natChars (q6mag h / 1000000) ++ '.' :: pad6 (q6mag h % 1000000))

/-- Parse the magnitude part of a `%f` field (digits, `.`, digits) up to
the terminating newline. -/
def parseFloatMag (cs : List Char) : Option ℚ :=
  (parseNat (splitOnChar '.' cs).1).bind fun a =>
    (parseNat (splitOnChar '\n' (splitOnChar '.' cs).2).1).map fun b =>
      (a : ℚ) + (b : ℚ) / 10 ^ (splitOnChar '\n' (splitOnChar '.' cs).2).1.length

/-- Parse a `%f` field (with optional leading `-`) up to the terminating
newline. -/
def parseFloatLine (cs : List Char) : Option ℚ :=
  match cs with
  | [] => none
  | c :: cs' =>
    if c = '-' then (parseFloatMag cs').map Neg.neg
    else parseFloatMag (c :: cs')

/-- The CSV line `writeSD` builds with
`sprintf(buffer, "%d,%d,%f\n", left_change, right_change, heading_change)`
(src lines 173-186). -/
def csvLine (l r : Int) (h : ℚ) : List Char :=
  intChars l ++ ',' :: (intChars r ++ ',' :: (floatChars h ++ ['\n']))

/-- Parse one CSV line back into its
(left_delta, right_delta, heading_delta) triple. -/
def parseCSV (cs : List Char) : Option (Int × Int × ℚ) :=
  (parseInt (splitOnChar ',' cs).1).bind fun l =>
    (parseInt (splitOnChar ',' (splitOnChar ',' cs).2).1).bind fun r =>
      (parseFloatLine (splitOnChar ',' (splitOnChar ',' cs).2).2).map fun h =>
        (l, r, h)

/-! ## Supporting lemmas -/

lemma foldl_interruptLeft (init : Int) (bs : List Bool) :
    List.foldl interruptLeft init bs
      = init + (bs.map fun b => if b then (1 : Int) else -1).sum := by
  induction bs generalizing init with
  | nil => simp
  | cons b tl ih =>
    rw [List.foldl_cons, ih]
    cases b <;> simp [interruptLeft, digitalVal] <;> ring

lemma foldl_interruptRight (init : Int) (bs : List Bool) :
    List.foldl interruptRight init bs
      = init + (bs.map fun b => if b then (-1 : Int) else 1).sum := by
  induction bs generalizing init with
  | nil => simp
  | cons b tl ih =>
    rw [List.foldl_cons, ih]
    cases b <;> simp [interruptRight, digitalVal] <;> ring

lemma atan2_zero_pos {y x : ℝ} (hx : 0 ≤ x) (hy : y = 0) : atan2 y x = 0 := by
  rw [atan2, Complex.arg_eq_zero_iff]
  exact ⟨hx, hy⟩

lemma fireEdge_disabled {s : EncState} (h : s.intEnabled = false)
    (e : EdgeEvent) : fireEdge s e = s := by
  simp [fireEdge, h]

lemma fireEdges_disabled {s : EncState} (h : s.intEnabled = false)
    (es : List EdgeEvent) : fireEdges s es = s := by
  induction es with
  | nil => rfl
  | cons e tl ih =>
    rw [fireEdges, List.foldl_cons, fireEdge_disabled h]
    exact ih

lemma digitChar_facts : ∀ d : Nat, d < 10 →
    (Nat.digitChar d).isDigit = true ∧ (Nat.digitChar d).toNat - 48 = d := by
  decide

lemma isDigit_ne_special {c : Char} (h : c.isDigit = true) :
    c ≠ ',' ∧ c ≠ '.' ∧ c ≠ '-' ∧ c ≠ '\n' :=
  ⟨fun e => by rw [e] at h; exact absurd h (by decide),
   fun e => by rw [e] at h; exact absurd h (by decide),
   fun e => by rw [e] at h; exact absurd h (by decide),
   fun e => by rw [e] at h; exact absurd h (by decide)⟩

lemma natChars_ne_nil (n : Nat) : natChars n ≠ [] := by
  rw [natChars]
  by_cases hn : n = 0
  · rw [if_pos hn]
    exact List.cons_ne_nil _ _
  · rw [if_neg hn]
    simp [Nat.digits_ne_nil_iff_ne_zero.mpr hn]

lemma natChars_isDigit {n : Nat} {c : Char} (h : c ∈ natChars n) :
    c.isDigit = true := by
  rw [natChars] at h
  by_cases hn : n = 0
  · rw [if_pos hn] at h
    simp at h
    subst h
    decide
  · rw [if_neg hn, List.mem_reverse, List.mem_map] at h
    obtain ⟨d, hd, rfl⟩ := h
    exact (digitChar_facts d (Nat.digits_lt_base (by norm_num) hd)).1

lemma natChars_head_cons (n : Nat) :
    ∃ c tl, natChars n = c :: tl ∧ c.isDigit = true := by
  cases hnc : natChars n with
  | nil => exact absurd hnc (natChars_ne_nil n)
  | cons c tl =>
    have hc : c ∈ natChars n := by
      rw [hnc]
      exact List.mem_cons_self c tl
    exact ⟨c, tl, rfl, natChars_isDigit hc⟩

lemma goNat_digits (es : List Nat) (h : ∀ d ∈ es, d < 10) (a : Nat) :
    goNat a (es.map Nat.digitChar)
      = some (es.foldl (fun acc d => acc * 10 + d) a) := by
  induction es generalizing a with
  | nil => rfl
  | cons d tl ih =>
    have hd := h d (List.mem_cons_self d tl)
    have htl : ∀ x ∈ tl, x < 10 := fun x hx => h x (List.mem_cons_of_mem d hx)
    have hf := digitChar_facts d hd
    rw [List.map_cons, List.foldl_cons]
    simp only [goNat, hf.1, if_true, hf.2]
    exact ih htl (a * 10 + d)

lemma foldl_reverse_ofDigits (ds : List Nat) (a : Nat) :
    ds.reverse.foldl (fun acc d => acc * 10 + d) a
      = a * 10 ^ ds.length + Nat.ofDigits 10 ds := by
  induction ds generalizing a with
  | nil => simp
  | cons d tl ih =>
    rw [List.reverse_cons, List.foldl_append, ih]
    simp only [List.foldl_cons, List.foldl_nil, Nat.ofDigits_cons, List.length_cons]
    ring

lemma parseNat_natChars (n : Nat) : parseNat (natChars n) = some n := by
  by_cases hn : n = 0
  · subst hn
    decide
  · rw [parseNat, if_neg (natChars_ne_nil n), natChars, if_neg hn]
    have hlt : ∀ d ∈ (Nat.digits 10 n).reverse, d < 10 := by
      intro d hd
      rw [List.mem_reverse] at hd
      exact Nat.digits_lt_base (by norm_num) hd
    rw [← List.map_reverse, goNat_digits _ hlt 0, foldl_reverse_ofDigits]
    simp [Nat.ofDigits_digits]

lemma goNat_replicate_zero (k : Nat) (cs : List Char) :
    goNat 0 (List.replicate k '0' ++ cs) = goNat 0 cs := by
  induction k with
  | zero => rfl
  | succ k ih =>
    rw [List.replicate_succ, List.cons_append]
    simp only [goNat, show ('0').isDigit = true from rfl, if_true,
      show ('0').toNat - 48 = 0 from rfl]
    exact ih

lemma natChars_length_le {m : Nat} (h : m < 1000000) :
    (natChars m).length ≤ 6 := by
  by_cases hm : m = 0
  · subst hm
    decide
  · rw [natChars, if_neg hm]
    simp only [List.length_reverse, List.length_map]
    by_contra hlen
    push_neg at hlen
    have h1 := Nat.base_pow_length_digits_le 10 m (by norm_num) hm
    have h3 : (10000000 : ℕ) ≤ 10 * m := by
      calc (10000000 : ℕ) = 10 ^ 7 := by norm_num
        _ ≤ 10 ^ (Nat.digits 10 m).length := Nat.pow_le_pow_right (by norm_num) hlen
        _ ≤ 10 * m := h1
    omega

lemma pad6_length {m : Nat} (h : m < 1000000) : (pad6 m).length = 6 := by
  rw [pad6, List.length_append, List.length_replicate]
  have := natChars_length_le h
  omega

lemma pad6_ne_nil (m : Nat) : pad6 m ≠ [] := by
  rw [pad6]
  simp [natChars_ne_nil m]

lemma pad6_isDigit {m : Nat} {c : Char} (h : c ∈ pad6 m) : c.isDigit = true := by
  rw [pad6, List.mem_append] at h
  rcases h with h | h
  · rw [List.eq_of_mem_replicate h]
    decide
  · exact natChars_isDigit h

lemma parseNat_pad6 (m : Nat) : parseNat (pad6 m) = some m := by
  rw [parseNat, if_neg (pad6_ne_nil m), pad6, goNat_replicate_zero]
  have := parseNat_natChars m
  rw [parseNat, if_neg (natChars_ne_nil m)] at this
  exact this

lemma splitOnChar_append {sep : Char} {a : List Char}
    (h : ∀ c ∈ a, c ≠ sep) (b : List Char) :
    splitOnChar sep (a ++ sep :: b) = (a, b) := by
  induction a with
  | nil => simp [splitOnChar]
  | cons c tl ih =>
    have hc : c ≠ sep := h c (List.mem_cons_self c tl)
    have htl : ∀ x ∈ tl, x ≠ sep := fun x hx => h x (List.mem_cons_of_mem c hx)
    simp [splitOnChar, hc, ih htl]

lemma parseInt_intChars (i : Int) : parseInt (intChars i) = some i := by
  by_cases hi : i < 0
  · rw [intChars, if_pos hi]
    obtain ⟨c, tl, hct, hcd⟩ := natChars_head_cons i.natAbs
    rw [hct]
    show parseInt ('-' :: (c :: tl)) = some i
    rw [parseInt, if_pos rfl, ← hct, parseNat_natChars]
    simp only [Option.map_some', Int.ofNat_eq_natCast]
    congr 1
    omega
  · rw [intChars, if_neg hi]
    obtain ⟨c, tl, hct, hcd⟩ := natChars_head_cons i.natAbs
    rw [hct]
    have hcm : c ≠ '-' := (isDigit_ne_special hcd).2.2.1
    rw [parseInt, if_neg hcm, ← hct, parseNat_natChars]
    simp only [Option.map_some', Int.ofNat_eq_natCast]
    congr 1
    omega

lemma intChars_ne_comma {i : Int} : ∀ c ∈ intChars i, c ≠ ',' := by
  intro c hc
  rw [intChars] at hc
  by_cases hi : i < 0
  · rw [if_pos hi] at hc
    rcases List.mem_cons.mp hc with rfl | hm
    · decide
    · exact (isDigit_ne_special (natChars_isDigit hm)).1
  · rw [if_neg hi] at hc
    exact (isDigit_ne_special (natChars_isDigit hc)).1

lemma q6round_of_neg {h : ℚ} (hneg : h < 0) : q6round h = -(q6mag h : Int) :=
  if_pos hneg

lemma q6round_of_nonneg {h : ℚ} (hneg : ¬ h < 0) : q6round h = (q6mag h : Int) :=
  if_neg hneg

lemma parseFloatMag_shape (n : Nat) :
    parseFloatMag (natChars (n / 1000000) ++ '.' :: (pad6 (n % 1000000) ++ ['\n']))
      = some ((n : ℚ) / 1000000) := by
  have hmod : n % 1000000 < 1000000 := Nat.mod_lt _ (by norm_num)
  have hdot : ∀ c ∈ natChars (n / 1000000), c ≠ '.' :=
    fun c hc => (isDigit_ne_special (natChars_isDigit hc)).2.1
  have hnl : ∀ c ∈ pad6 (n % 1000000), c ≠ '\n' :=
    fun c hc => (isDigit_ne_special (pad6_isDigit hc)).2.2.2
  rw [parseFloatMag, splitOnChar_append hdot, splitOnChar_append hnl,
    parseNat_natChars, parseNat_pad6, pad6_length hmod]
  simp only [Option.some_bind, Option.map_some']
  have hdm := Nat.div_add_mod n 1000000
  have hcast : ((n : ℚ)) = 1000000 * ((n / 1000000 : Nat) : ℚ) + ((n % 1000000 : Nat) : ℚ) := by
    exact_mod_cast congrArg (fun k : Nat => (k : ℚ)) hdm.symm
  rw [hcast]
  norm_num
  ring

lemma parseFloatMag_shape' (n : Nat) :
    parseFloatMag ((natChars (n / 1000000) ++ ('.' :: pad6 (n % 1000000))) ++ ['\n'])
      = some ((n : ℚ) / 1000000) := by
  have hsh : (natChars (n / 1000000) ++ ('.' :: pad6 (n % 1000000))) ++ ['\n']
      = natChars (n / 1000000) ++ '.' :: (pad6 (n % 1000000) ++ ['\n']) := by
    simp
  rw [hsh, parseFloatMag_shape]

lemma parseFloatLine_shape (n : Nat) :
    parseFloatLine ((natChars (n / 1000000) ++ ('.' :: pad6 (n % 1000000))) ++ ['\n'])
      = some ((n : ℚ) / 1000000) := by
  obtain ⟨c, tl, hct, hcd⟩ := natChars_head_cons (n / 1000000)
  have hcm : c ≠ '-' := (isDigit_ne_special hcd).2.2.1
  have hsh : (natChars (n / 1000000) ++ ('.' :: pad6 (n % 1000000))) ++ ['\n']
      = c :: ((tl ++ ('.' :: pad6 (n % 1000000))) ++ ['\n']) := by
    rw [hct]
    simp
  rw [hsh, parseFloatLine, if_neg hcm, hsh.symm, parseFloatMag_shape']

lemma parseFloatLine_floatChars (h : ℚ) :
    parseFloatLine (floatChars h ++ ['\n'])
      = some ((q6round h : ℚ) / 1000000) := by
  by_cases hneg : h < 0
  · have hsh : floatChars h ++ ['\n']
        = '-' :: ((natChars (q6mag h / 1000000) ++ ('.' :: pad6 (q6mag h % 1000000))) ++ ['\n']) := by
      rw [floatChars, if_pos hneg]
      simp
    rw [hsh, parseFloatLine, if_pos rfl, parseFloatMag_shape']
    simp only [Option.map_some']
    congr 1
    rw [q6round_of_neg hneg]
    push_cast
    ring
  · have hsh : floatChars h ++ ['\n']
        = (natChars (q6mag h / 1000000) ++ ('.' :: pad6 (q6mag h % 1000000))) ++ ['\n'] := by
      rw [floatChars, if_neg hneg]
      simp
    rw [hsh, parseFloatLine_shape]
    congr 1
    rw [q6round_of_nonneg hneg]
    push_cast
    ring

lemma floatChars_ne_comma {h : ℚ} : ∀ c ∈ floatChars h ++ ['\n'], c ≠ ',' := by
  intro c hc
  rcases List.mem_append.mp hc with hc1 | hc1
  · rw [floatChars] at hc1
    rcases List.mem_append.mp hc1 with hc2 | hc2
    · by_cases hneg : h < 0
      · rw [if_pos hneg] at hc2
        rcases List.mem_singleton.mp hc2 with rfl
        decide
      · rw [if_neg hneg] at hc2
        exact absurd hc2 (List.not_mem_nil c)
    · rcases List.mem_append.mp hc2 with hm | hm
      · exact (isDigit_ne_special (natChars_isDigit hm)).1
      · rcases List.mem_cons.mp hm with rfl | hm'
        · decide
        · exact (isDigit_ne_special (pad6_isDigit hm')).1
  · rcases List.mem_singleton.mp hc1 with rfl
    decide

lemma q6mag_bound (h : ℚ) :
    abs ((q6mag h : ℚ) / 1000000 - abs h) ≤ 1 / 2000000 := by
  have hfl : (0 : ℤ) ≤ ⌊abs h * 1000000 + 1 / 2⌋ := by
    rw [Int.floor_nonneg]
    positivity
  have hval : ((q6mag h : ℚ)) = ((⌊abs h * 1000000 + 1 / 2⌋ : ℤ) : ℚ) := by
    rw [q6mag]
    exact_mod_cast congrArg (fun z : ℤ => (z : ℚ)) (Int.toNat_of_nonneg hfl)
  have h1 : ((⌊abs h * 1000000 + 1 / 2⌋ : ℤ) : ℚ) ≤ abs h * 1000000 + 1 / 2 :=
    Int.floor_le _
  have h2 : abs h * 1000000 + 1 / 2 < ((⌊abs h * 1000000 + 1 / 2⌋ : ℤ) : ℚ) + 1 :=
    Int.lt_floor_add_one _
  rw [hval, abs_le]
  constructor
  · linarith
  · linarith

lemma q6round_bound (h : ℚ) :
    abs ((q6round h : ℚ) / 1000000 - h) ≤ 1 / 2000000 := by
  by_cases hneg : h < 0
  · have hb := q6mag_bound h
    rw [abs_of_neg hneg] at hb
    rw [q6round_of_neg hneg]
    have hrw : ((-(q6mag h : Int) : ℤ) : ℚ) / 1000000 - h
        = -((q6mag h : ℚ) / 1000000 - (-h)) := by
      push_cast
      ring
    rw [hrw, abs_neg]
    exact hb
  · have hb := q6mag_bound h
    rw [abs_of_nonneg (not_lt.mp hneg)] at hb
    rw [q6round_of_nonneg hneg]
    have hrw : (((q6mag h : Int) : ℤ) : ℚ) / 1000000 - h
        = (q6mag h : ℚ) / 1000000 - h := by
      push_cast
      ring
    rw [hrw]
    exact hb

/-! ## The claims -/

/-- C1 counterexample: the headings 0 and π both lie in (−π, π], their raw
difference is −π, and the wrapped delta `wrapDelta (0 − π) = −π` does not
lie in the claimed half-open interval (−π, π] (its left endpoint is
excluded). -/
theorem wrapDelta_boundary_cex :
    (0 : ℝ) ∈ Set.Ioc (-Real.pi) Real.pi ∧
    Real.pi ∈ Set.Ioc (-Real.pi) Real.pi ∧
    wrapDelta ((0 : ℝ) - Real.pi) ∉ Set.Ioc (-Real.pi) Real.pi := by
  have hpi := Real.pi_pos
  refine ⟨⟨by linarith, by linarith⟩, ⟨by linarith, le_refl _⟩, ?_⟩
  have h1 : wrapHigh ((0 : ℝ) - Real.pi) = -Real.pi := by
    rw [wrapHigh, if_neg (by push_neg; linarith)]
    ring
  have h2 : wrapDelta ((0 : ℝ) - Real.pi) = -Real.pi := by
    rw [wrapDelta, h1, wrapLow, if_neg (lt_irrefl _)]
  rw [h2, Set.mem_Ioc]
  push_neg
  intro h
  exact absurd h (lt_irrefl _)

/-- C1 (amended): for headings h₁, h₂ each in (−π, π], the wrapped delta
of the raw difference d = h₁ − h₂ lies in the closed interval [−π, π]
(the value −π is attained, e.g. for h₁ = 0, h₂ = π, so the claimed
half-open interval (−π, π] must be closed on the left), and it is
congruent to d modulo 2π, the wrap adding or subtracting 2π at most
once. -/
theorem wrapDelta_range_congruent (h1 h2 : ℝ)
    (m1 : h1 ∈ Set.Ioc (-Real.pi) Real.pi)
    (m2 : h2 ∈ Set.Ioc (-Real.pi) Real.pi) :
    wrapDelta (h1 - h2) ∈ Set.Icc (-Real.pi) Real.pi ∧
    (wrapDelta (h1 - h2) = h1 - h2 ∨
     wrapDelta (h1 - h2) = h1 - h2 - 2 * Real.pi ∨
     wrapDelta (h1 - h2) = h1 - h2 + 2 * Real.pi) := by
  obtain ⟨l1, u1⟩ := m1
  obtain ⟨l2, u2⟩ := m2
  have hpi := Real.pi_pos
  rw [wrapDelta, wrapHigh, wrapLow]
  by_cases hH : h1 - h2 > Real.pi
  · rw [if_pos hH, if_neg (by push_neg; linarith)]
    exact ⟨⟨by linarith, by linarith⟩, Or.inr (Or.inl rfl)⟩
  · rw [if_neg hH]
    push_neg at hH
    by_cases hL : h1 - h2 < -Real.pi
    · rw [if_pos hL]
      exact ⟨⟨by linarith, by linarith⟩, Or.inr (Or.inr rfl)⟩
    · rw [if_neg hL]
      push_neg at hL
      exact ⟨⟨by linarith, by linarith⟩, Or.inl rfl⟩

/-- C1 witness: at h₁ = h₂ = π the raw difference is 0 and the wrapped
delta is 0, inside [−π, π] and congruent to the raw difference. -/
theorem wrapDelta_range_congruent_witness :
    wrapDelta (Real.pi - Real.pi) ∈ Set.Icc (-Real.pi) Real.pi ∧
    (wrapDelta (Real.pi - Real.pi) = Real.pi - Real.pi ∨
     wrapDelta (Real.pi - Real.pi) = Real.pi - Real.pi - 2 * Real.pi ∨
     wrapDelta (Real.pi - Real.pi) = Real.pi - Real.pi + 2 * Real.pi) :=
  wrapDelta_range_congruent Real.pi Real.pi
    ⟨by linarith [Real.pi_pos], le_refl _⟩
    ⟨by linarith [Real.pi_pos], le_refl _⟩

/-- C2 counterexample: a left-wheel rising edge with B low contributes −1
(not +1), and the claimed scenario sequence B = low, low, high ends at −1,
not at the claimed final count +1. -/
theorem interruptLeft_low_cex :
    interruptLeft 0 false = -1 ∧
    List.foldl interruptLeft 0 [false, false, true] ≠ 1 ∧
    List.foldl interruptLeft 0 [false, false, true] = -1 := by
  refine ⟨by decide, by decide, by decide⟩

/-- C2 (amended): each rising edge adjusts the wheel's counter by one
signed unit determined by the B level at that instant, the counter after a
sequence being the initial value plus the sum of the per-edge
contributions; the convention is mirrored between the wheels: a left edge
contributes −1 if B is low and +1 if B is high, while a right edge
contributes +1 if B is low and −1 if B is high.  The scenario sequence
B = low, low, high therefore produces −1, −1, +1 (final −1) on the left
wheel, and +1, +1, −1 (final +1) on the right wheel. -/
theorem encoder_step_contributions :
    (∀ (init : Int) (bs : List Bool),
      List.foldl interruptLeft init bs
        = init + (bs.map fun b => if b then (1 : Int) else -1).sum) ∧
    (∀ (init : Int) (bs : List Bool),
      List.foldl interruptRight init bs
        = init + (bs.map fun b => if b then (-1 : Int) else 1).sum) ∧
    List.foldl interruptLeft 0 [false, false, true] = -1 ∧
    List.foldl interruptRight 0 [false, false, true] = 1 := by
  exact ⟨foldl_interruptLeft, foldl_interruptRight, by decide, by decide⟩

/-- C3 counterexample: at `now = end_time` the claim requires a redraw
(the new `end_time` would be at least `now + 500`, in particular it would
change), but the code's strict test `time > end_time` leaves every field
unchanged; and when a redraw does fire, a raw draw of 2 for the left
speed produces `end_left = 384`, outside the claimed range `[128, 256)`. -/
theorem autodriveUpdate_cex :
    autodriveUpdate ⟨0, 128, 128, 5, 128, 128⟩ 5 2 2 2 = ⟨0, 128, 128, 5, 128, 128⟩ ∧
    (autodriveUpdate ⟨0, 128, 128, 0, 128, 128⟩ 1 2 2 2).end_left = 384 ∧
    ¬ (autodriveUpdate ⟨0, 128, 128, 0, 128, 128⟩ 1 2 2 2).end_left < 256 := by
  refine ⟨by decide, by decide, by decide⟩

/-- C3 (amended): on `update(now)` with successive raw draws `r1, r2, r3`
from the random source: if `now > end_time` (strictly), the current
segment's end values become the new segment's start values (segment
continuity), the new `end_time` is `now + r1*1000 + 1000`, and the new end
speeds are `r2*128 + 128` and `r3*128 + 128` (so any draw ≥ 1 leaves the
claimed speed range `[128, 256)` and the claimed duration range
`[500, 3000)` is not drawn from); if `now ≤ end_time` — including the
boundary `now = end_time` — every segment field is unchanged. -/
theorem autodriveUpdate_rule (s : DriveState) (now r1 r2 r3 : Int) :
    (s.end_time < now →
      (autodriveUpdate s now r1 r2 r3).start_time = s.end_time ∧
      (autodriveUpdate s now r1 r2 r3).start_left = s.end_left ∧
      (autodriveUpdate s now r1 r2 r3).start_right = s.end_right ∧
      (autodriveUpdate s now r1 r2 r3).end_time = now + r1 * 1000 + 1000 ∧
      (autodriveUpdate s now r1 r2 r3).end_left = r2 * 128 + 128 ∧
      (autodriveUpdate s now r1 r2 r3).end_right = r3 * 128 + 128) ∧
    (now ≤ s.end_time → autodriveUpdate s now r1 r2 r3 = s) := by
  constructor
  · intro h
    simp [autodriveUpdate, h]
  · intro h
    simp [autodriveUpdate, not_lt.mpr h]

/-- C3 witness: the redraw case at the state left by `setupAutodrive 0 0`
with `now = 101` and draws (0, 2, 2), and the unchanged case at
`now = 100 = end_time`. -/
theorem autodriveUpdate_rule_witness :
    ((autodriveUpdate (setupAutodrive 0 0) 101 0 2 2).start_time = (setupAutodrive 0 0).end_time ∧
     (autodriveUpdate (setupAutodrive 0 0) 101 0 2 2).start_left = (setupAutodrive 0 0).end_left ∧
     (autodriveUpdate (setupAutodrive 0 0) 101 0 2 2).start_right = (setupAutodrive 0 0).end_right ∧
     (autodriveUpdate (setupAutodrive 0 0) 101 0 2 2).end_time = 101 + 0 * 1000 + 1000 ∧
     (autodriveUpdate (setupAutodrive 0 0) 101 0 2 2).end_left = 2 * 128 + 128 ∧
     (autodriveUpdate (setupAutodrive 0 0) 101 0 2 2).end_right = 2 * 128 + 128) ∧
    autodriveUpdate (setupAutodrive 0 0) 100 0 2 2 = setupAutodrive 0 0 :=
  ⟨(autodriveUpdate_rule (setupAutodrive 0 0) 101 0 2 2).1 (by decide),
   (autodriveUpdate_rule (setupAutodrive 0 0) 100 0 2 2).2 (by decide)⟩

/-- C4: the clamp of src lines 256-257 is discarded, so an out-of-range
duty value reaches the pins.  Starting from `setupAutodrive` at t = 0, the
redraw at t = 101 with draws (0, 2, 2) yields end speeds 384; at
t = 1101 = end_time the interpolated pair (384, 384) is written to the
pins unclamped, although `constrain` would have mapped it to 255. -/
theorem autodrive_unclamped_output_bug :
    (autodrive (autodriveUpdate (setupAutodrive 0 0) 101 0 2 2) 1101 0 0 0).2 = (384, 384) ∧
    ¬ (autodrive (autodriveUpdate (setupAutodrive 0 0) 101 0 2 2) 1101 0 0 0).2.1 ≤ 255 ∧
    constrain 384 128 255 = 255 := by
  refine ⟨by decide, by decide, by decide⟩

/-- C5 counterexample: on the stream whose samples are
(10,0), (0,10), (0,10), (0,10), (0,10), the source's single-sample heading
is `atan2(0, 10) = 0`, while the claimed 5-sample averaged heading is
`atan2(8, 2) ≠ 0`; the heading read is not the arctangent of the
five-sample component means. -/
theorem compassHeading_single_sample_cex :
    compassHeadingFrom cexStream ≠ compassHeadingSpec5 (fun i => cexStream (i : ℕ)) := by
  have hL : compassHeadingFrom cexStream = 0 := by
    apply atan2_zero_pos <;> norm_num [compassHeadingFrom, compassHeading, cexStream]
  have e0 : ((0 : Fin 5) : ℕ) = 0 := rfl
  have e1 : ((1 : Fin 5) : ℕ) = 1 := rfl
  have e2 : ((2 : Fin 5) : ℕ) = 2 := rfl
  have e3 : ((3 : Fin 5) : ℕ) = 3 := rfl
  have e4 : ((4 : Fin 5) : ℕ) = 4 := rfl
  have hx : (∑ i : Fin 5, (((fun i : Fin 5 => cexStream (i : ℕ)) i).1 : ℝ)) / 5 = 2 := by
    rw [Fin.sum_univ_five]
    norm_num [cexStream, e0, e1, e2, e3, e4]
  have hy : (∑ i : Fin 5, (((fun i : Fin 5 => cexStream (i : ℕ)) i).2 : ℝ)) / 5 = 8 := by
    rw [Fin.sum_univ_five]
    norm_num [cexStream, e0, e1, e2, e3, e4]
  have hR : compassHeadingSpec5 (fun i => cexStream (i : ℕ)) ≠ 0 := by
    rw [compassHeadingSpec5, hx, hy, atan2]
    rw [Ne, Complex.arg_eq_zero_iff]
    norm_num
  rw [hL]
  exact fun h => hR h.symm

/-- C5 (amended): a heading read performs a single raw sample — it
depends only on the first sample the sensor delivers — and returns
`atan2` of that sample's Y and X components; in particular any read whose
(first) sample has X > 0 and Y = 0, such as the scenario X = 10, Y = 0,
yields heading 0.0 rad. -/
theorem compassHeading_single_sample :
    (∀ st st' : ℕ → Int × Int, st 0 = st' 0 →
      compassHeadingFrom st = compassHeadingFrom st') ∧
    (∀ st : ℕ → Int × Int, 0 < (st 0).1 → (st 0).2 = 0 →
      compassHeadingFrom st = 0) := by
  constructor
  · intro st st' h
    rw [compassHeadingFrom, compassHeadingFrom, h]
  · intro st h1 h2
    apply atan2_zero_pos
    · exact_mod_cast le_of_lt h1
    · exact_mod_cast h2

/-- C5 witness: the scenario stream constantly (10, 0) agrees with
`cexStream` on sample 0 and yields heading 0. -/
theorem compassHeading_single_sample_witness :
    compassHeadingFrom (fun _ => ((10 : Int), (0 : Int))) = compassHeadingFrom cexStream ∧
    compassHeadingFrom (fun _ => ((10 : Int), (0 : Int))) = 0 :=
  ⟨compassHeading_single_sample.1 _ _ (by decide),
   compassHeading_single_sample.2 _ (by decide) (by decide)⟩

/-- C6: `setupAutodrive` establishes the DriveSegment invariant
(`end_time > start_time`, all four speeds in [128, 255]), but the first
redraw with a raw left-speed draw of 1 already sets `end_left = 256`,
violating the claimed speed bound. -/
theorem autodrive_speed_invariant_bug :
    ((setupAutodrive 0 0).start_time < (setupAutodrive 0 0).end_time ∧
     (setupAutodrive 0 0).start_left = 128 ∧ (setupAutodrive 0 0).start_right = 128 ∧
     (setupAutodrive 0 0).end_left = 128 ∧ (setupAutodrive 0 0).end_right = 128) ∧
    (autodriveUpdate (setupAutodrive 0 0) 101 0 1 1).end_left = 256 ∧
    ¬ (autodriveUpdate (setupAutodrive 0 0) 101 0 1 1).end_left ≤ 255 := by
  refine ⟨by decide, by decide, by decide⟩

/-- C7 counterexample: when the storage sink cannot be opened
(`SD.begin` and `SD.open` both fail), `setupSD` does not halt and emits
no diagnostic — the claimed fail-stop behaviour does not exist in the
source. -/
theorem setupSD_no_failstop_cex :
    (setupSD ⟨false, false⟩).halted = false ∧
    (setupSD ⟨false, false⟩).diagnosticCount = 0 ∧
    (setupSD ⟨false, false⟩).fileOpen = false := by
  refine ⟨rfl, rfl, rfl⟩

/-- C7 (amended): whatever the outcome of the storage-sink
initialization, startup never halts and never emits a diagnostic; the
file handle is usable exactly when both `SD.begin` and `SD.open`
succeed, and on an unusable handle every subsequent telemetry line is
silently dropped, while on a usable handle each line is appended. -/
theorem setupSD_silent_failure (env : SDEnv) (log : List (List Char))
    (line : List Char) :
    (setupSD env).halted = false ∧
    (setupSD env).diagnosticCount = 0 ∧
    (setupSD env).fileOpen = (env.beginOk && env.openOk) ∧
    fileAppend false log line = log ∧
    fileAppend true log line = log ++ [line] := by
  refine ⟨rfl, rfl, rfl, rfl, rfl⟩

/-- C8: whatever edge events the hardware attempts at any interleaving
point inside the critical section, every such event is masked: the pair
returned by the loop's snapshot is exactly the counter pair of the single
state at which interrupts were disabled (no read races an increment and
neither counter is observed mid-update relative to the other), and the
section leaves the counters unchanged with interrupts re-enabled. -/
theorem snapshot_consistent_pair (s : EncState) (e1 e2 e3 : List EdgeEvent) :
    (snapshotSteps s e1 e2 e3).1 = (s.leftSteps, s.rightSteps) ∧
    (snapshotSteps s e1 e2 e3).2.leftSteps = s.leftSteps ∧
    (snapshotSteps s e1 e2 e3).2.rightSteps = s.rightSteps ∧
    (snapshotSteps s e1 e2 e3).2.intEnabled = true := by
  have h0 : ({ s with intEnabled := false } : EncState).intEnabled = false := rfl
  simp [snapshotSteps, fireEdges_disabled h0]

/-- C9: the CSV line written for a tick's triple
(left_change, right_change, heading_change) has the form
`<left>,<right>,<heading>\n` with `%d`-formatted signed integer step
deltas and a `%f`-formatted (six decimal places) heading delta; parsing
the line back recovers the integer deltas exactly and the heading delta
up to the `%f` quantization, i.e. within 5·10⁻⁷ of the written value. -/
theorem writeSD_csv_roundtrip (l r : Int) (h : ℚ) :
    parseCSV (csvLine l r h) = some (l, r, (q6round h : ℚ) / 1000000) ∧
    abs ((q6round h : ℚ) / 1000000 - h) ≤ 1 / 2000000 := by
  constructor
  · rw [parseCSV, csvLine]
    rw [splitOnChar_append intChars_ne_comma]
    simp only [splitOnChar_append intChars_ne_comma, parseInt_intChars,
      Option.some_bind, parseFloatLine_floatChars, Option.map_some']
  · exact q6round_bound h

/-- C10: on the very first tick the baselines are the zero-initialized
globals, so the recorded heading delta is the wrap of the first measured
heading itself and the recorded wheel deltas are the absolute counter
values accumulated since boot; the new baselines are that tick's
readings. -/
theorem first_tick_zero_baseline (h : ℝ) (l r : Int) :
    (loopBody initialLoopState h l r).2 = (l, r, wrapDelta h) ∧
    (loopBody initialLoopState h l r).1.previous_heading = h ∧
    (loopBody initialLoopState h l r).1.previous_left = l ∧
    (loopBody initialLoopState h l r).1.previous_right = r := by
  refine ⟨?_, rfl, rfl, rfl⟩
  simp [loopBody, initialLoopState]
